import Mathlib

/-!
Verification of the Nanocolor color-transform library (Python implementation,
src/py/nanocolor.py) against its natural-language specification.

Embedding conventions.  Python floats are modelled exactly: values that flow
only through field operations (+, -, *, /, comparisons) are embedded as
rationals (ℚ), so that every such definition is computable and decidable;
values that flow through the transcendental functions math.pow / math.exp /
math.log (the transfer functions and the coefficient phi) are embedded as real
numbers (ℝ) using Real.rpow / Real.exp / Real.log.  A Python operation that
raises an exception (matrix inversion of a near-singular matrix, division by
zero, math.log of a non-positive argument) is modelled by an Option-valued
function returning none on exactly those inputs.  Field and function names
follow the source.
-/

/-- Mirrors class Chromaticity (nanocolor.py:17): a CIE 1931 xy coordinate. -/
structure Chromaticity where
  x : ℚ
  y : ℚ
deriving DecidableEq

/-- Mirrors class XYZ (nanocolor.py:23): a CIE 1931 tristimulus coordinate. -/
structure XYZ where
  x : ℚ
  y : ℚ
  z : ℚ
deriving DecidableEq

/-- Mirrors class Yxy (nanocolor.py:30): luminance plus chromaticity. -/
structure Yxy where
  Y : ℚ
  x : ℚ
  y : ℚ
deriving DecidableEq

/-- Mirrors class RGB (nanocolor.py:37).  RGB components are fed through the
transcendental transfer functions, so they are embedded as reals. -/
structure RGB where
  r : ℝ
  g : ℝ
  b : ℝ

/-- Mirrors class M33f (nanocolor.py:56): a row-major 3x3 matrix, fields
m0..m8 corresponding to the Python list indices m[0]..m[8]. -/
structure M33 where
  m0 : ℚ
  m1 : ℚ
  m2 : ℚ
  m3 : ℚ
  m4 : ℚ
  m5 : ℚ
  m6 : ℚ
  m7 : ℚ
  m8 : ℚ
deriving DecidableEq

/-- The default M33f() of the source: all nine entries zero (nanocolor.py:66). -/
def M33.zero : M33 := ⟨0, 0, 0, 0, 0, 0, 0, 0, 0⟩

/-- The 3x3 identity matrix (used in statements; the source builds it inline
in its self-test, nanocolor.py:542). -/
def M33.identity : M33 := ⟨1, 0, 0, 0, 1, 0, 0, 0, 1⟩

/-- Mirrors M33f.multiply (nanocolor.py:78-90), entry by entry. -/
def M33.multiply (a other : M33) : M33 :=
  ⟨a.m0 * other.m0 + a.m1 * other.m3 + a.m2 * other.m6,
   a.m0 * other.m1 + a.m1 * other.m4 + a.m2 * other.m7,
   a.m0 * other.m2 + a.m1 * other.m5 + a.m2 * other.m8,
   a.m3 * other.m0 + a.m4 * other.m3 + a.m5 * other.m6,
   a.m3 * other.m1 + a.m4 * other.m4 + a.m5 * other.m7,
   a.m3 * other.m2 + a.m4 * other.m5 + a.m5 * other.m8,
   a.m6 * other.m0 + a.m7 * other.m3 + a.m8 * other.m6,
   a.m6 * other.m1 + a.m7 * other.m4 + a.m8 * other.m7,
   a.m6 * other.m2 + a.m7 * other.m5 + a.m8 * other.m8⟩

/-- The determinant computed inside M33f.invert (nanocolor.py:99-101), with
the source's index aliases M0..M8 (a transposed reading of the storage)
resolved to the literal indices m0..m8. -/
def M33.det (a : M33) : ℚ :=
  a.m0 * (a.m4 * a.m8 - a.m7 * a.m5) -
  a.m3 * (a.m1 * a.m8 - a.m7 * a.m2) +
  a.m6 * (a.m1 * a.m5 - a.m4 * a.m2)

/-- Mirrors M33f.invert (nanocolor.py:92-116).  The Python raises ValueError
when the absolute determinant is below 1e-10; that is modelled by none.  The
nine quotients are the source's assignments with the index aliases resolved. -/
def M33.invert (a : M33) : Option M33 :=
  if |a.det| < 1e-10 then none
  else some
    ⟨(a.m4 * a.m8 - a.m7 * a.m5) / a.det,
     (a.m7 * a.m2 - a.m1 * a.m8) / a.det,
     (a.m1 * a.m5 - a.m4 * a.m2) / a.det,
     (a.m6 * a.m5 - a.m3 * a.m8) / a.det,
     (a.m0 * a.m8 - a.m6 * a.m2) / a.det,
     (a.m3 * a.m2 - a.m0 * a.m5) / a.det,
     (a.m3 * a.m7 - a.m6 * a.m4) / a.det,
     (a.m6 * a.m1 - a.m0 * a.m7) / a.det,
     (a.m0 * a.m4 - a.m3 * a.m1) / a.det⟩

/-- Mirrors M33f.transform_rgb (nanocolor.py:118-123): matrix times column
vector, with the rational matrix entries cast into the real RGB components. -/
def M33.transform_rgb (m : M33) (c : RGB) : RGB :=
  ⟨(m.m0 : ℝ) * c.r + (m.m1 : ℝ) * c.g + (m.m2 : ℝ) * c.b,
   (m.m3 : ℝ) * c.r + (m.m4 : ℝ) * c.g + (m.m5 : ℝ) * c.b,
   (m.m6 : ℝ) * c.r + (m.m7 : ℝ) * c.g + (m.m8 : ℝ) * c.b⟩

/-- Rational matrix-vector product, used to state facts about the derived
RGB to XYZ matrix (the rational shadow of rgb_to_xyz, nanocolor.py:398-405). -/
def M33.mulVec (m : M33) (a b c : ℚ) : XYZ :=
  ⟨m.m0 * a + m.m1 * b + m.m2 * c,
   m.m3 * a + m.m4 * b + m.m5 * c,
   m.m6 * a + m.m7 * b + m.m8 * c⟩

/-- Mirrors dataclass ColorSpaceDescriptor (nanocolor.py:126-135). -/
structure ColorSpaceDescriptor where
  name : String
  red_primary : Chromaticity
  green_primary : Chromaticity
  blue_primary : Chromaticity
  white_point : Chromaticity
  gamma : ℚ
  linear_bias : ℚ
deriving DecidableEq

/-- Mirrors dataclass ColorSpaceM33Descriptor (nanocolor.py:138-144). -/
structure ColorSpaceM33Descriptor where
  name : String
  rgb_to_xyz : M33
  gamma : ℚ
  linear_bias : ℚ
deriving DecidableEq

/-- Mirrors class ColorSpace (nanocolor.py:147-155).  The source caches k0 and
phi as instance attributes computed by _initialize from (gamma, linear_bias)
alone; here they are recovered by the functions ColorSpace.k0 and
ColorSpace.phi below, so only the descriptor and the derived matrix are
stored. -/
structure ColorSpace where
  descriptor : ColorSpaceDescriptor
  rgb_to_xyz : M33
deriving DecidableEq

/-- Success condition of the k0/phi computation in ColorSpace._initialize
(nanocolor.py:179-188): when gamma is not 1 and linear_bias is positive the
source evaluates math.log(gamma*a/(gamma + gamma*a - 1 - a)), which raises
unless that argument is positive (a zero denominator also raises).  With
total rational division, 0 < gamma*a/(gamma + gamma*a - 1 - a) captures
exactly "denominator nonzero and quotient positive". -/
def coeffsOK (gamma a : ℚ) : Bool :=
  gamma == 1 || decide (a ≤ 0) ||
    decide (0 < gamma * a / (gamma + gamma * a - 1 - a))

/-- The breakpoint k0 computed in ColorSpace._initialize
(nanocolor.py:179-187). -/
def ColorSpace.k0 (cs : ColorSpace) : ℚ :=
  if cs.descriptor.gamma = 1 then 1e9
  else if cs.descriptor.linear_bias ≤ 0 then 0
  else cs.descriptor.linear_bias / (cs.descriptor.gamma - 1)

/-- The linear-segment slope phi computed in ColorSpace._initialize
(nanocolor.py:179-188), transcribed with math.exp/math.log as
Real.exp/Real.log. -/
noncomputable def ColorSpace.phi (cs : ColorSpace) : ℝ :=
  if cs.descriptor.gamma = 1 then 1
  else if cs.descriptor.linear_bias ≤ 0 then 1
  else ((cs.descriptor.linear_bias : ℝ) /
      Real.exp (Real.log ((cs.descriptor.gamma : ℝ) * (cs.descriptor.linear_bias : ℝ) /
          ((cs.descriptor.gamma : ℝ) + (cs.descriptor.gamma : ℝ) * (cs.descriptor.linear_bias : ℝ)
            - 1 - (cs.descriptor.linear_bias : ℝ))) * (cs.descriptor.gamma : ℝ))) /
    ((cs.descriptor.gamma : ℝ) - 1)

/-- The matrix P of ColorSpace._initialize (nanocolor.py:195-214): columns are
the red, green and blue chromaticities extended with third coordinate
1 - x - y, stored row-major. -/
def Pmatrix (d : ColorSpaceDescriptor) : M33 :=
  ⟨d.red_primary.x, d.green_primary.x, d.blue_primary.x,
   d.red_primary.y, d.green_primary.y, d.blue_primary.y,
   1 - d.red_primary.x - d.red_primary.y,
   1 - d.green_primary.x - d.green_primary.y,
   1 - d.blue_primary.x - d.blue_primary.y⟩

/-- The RGB to XYZ derivation of ColorSpace._initialize (nanocolor.py:194-228):
normalize the white point to luminance 1 (dividing by white_point.y, which
raises - none - when it is zero), solve C = P⁻¹ · W, and scale the columns of
P by C.  none also models the ValueError of P.invert(). -/
def deriveMatrix (d : ColorSpaceDescriptor) : Option M33 :=
  if d.white_point.y = 0 then none
  else
    match (Pmatrix d).invert with
    | none => none
    | some pinv =>
      let w0 := d.white_point.x / d.white_point.y
      let w1 := d.white_point.y / d.white_point.y
      let w2 := (1 - d.white_point.x - d.white_point.y) / d.white_point.y
      let c0 := pinv.m0 * w0 + pinv.m1 * w1 + pinv.m2 * w2
      let c1 := pinv.m3 * w0 + pinv.m4 * w1 + pinv.m5 * w2
      let c2 := pinv.m6 * w0 + pinv.m7 * w1 + pinv.m8 * w2
      let p := Pmatrix d
      some ⟨p.m0 * c0, p.m1 * c1, p.m2 * c2,
            p.m3 * c0, p.m4 * c1, p.m5 * c2,
            p.m6 * c0, p.m7 * c1, p.m8 * c2⟩

/-- Mirrors ColorSpace.__init__ together with _initialize (nanocolor.py:150-228)
and the module function create_color_space (nanocolor.py:367-369): compute the
transfer coefficients (which can raise, hence the coeffsOK guard), then either
keep the default all-zero matrix when white_point.x == 0 (the matrix-init
sentinel, nanocolor.py:190-192) or run the primaries derivation. -/
def create_color_space (d : ColorSpaceDescriptor) : Option ColorSpace :=
  if coeffsOK d.gamma d.linear_bias then
    if d.white_point.x = 0 then some ⟨d, M33.zero⟩
    else (deriveMatrix d).map fun m => ⟨d, m⟩
  else none

/-- Mirrors ColorSpace.from_matrix together with create_color_space_m33
(nanocolor.py:157-172, 372-374): build a dummy descriptor with an all-zero
white point (so _initialize skips the derivation), then overwrite the matrix
with the supplied one. -/
def create_color_space_m33 (d : ColorSpaceM33Descriptor) : Option ColorSpace :=
  if coeffsOK d.gamma d.linear_bias then
    some ⟨⟨d.name, ⟨0, 0⟩, ⟨0, 0⟩, ⟨0, 0⟩, ⟨0, 0⟩, d.gamma, d.linear_bias⟩, d.rgb_to_xyz⟩
  else none

/-- The white point WP_D65 (nanocolor.py:266). -/
def WP_D65 : Chromaticity := ⟨0.3127, 0.3290⟩

/-- The white point WP_ACES (nanocolor.py:267). -/
def WP_ACES : Chromaticity := ⟨0.32168, 0.33767⟩

/-- The built-in descriptor table COLOR_SPACES (nanocolor.py:270-342), in the
source's declaration order (Python dicts preserve insertion order, and the
dict keys coincide with the descriptors' name fields). -/
def COLOR_SPACES : List ColorSpaceDescriptor :=
  [⟨"acescg", ⟨0.713, 0.293⟩, ⟨0.165, 0.830⟩, ⟨0.128, 0.044⟩, WP_ACES, 1.0, 0.0⟩,
   ⟨"adobergb", ⟨0.64, 0.33⟩, ⟨0.21, 0.71⟩, ⟨0.15, 0.06⟩, WP_D65, 2.2, 0.0⟩,
   ⟨"g18_ap1", ⟨0.713, 0.293⟩, ⟨0.165, 0.830⟩, ⟨0.128, 0.044⟩, WP_ACES, 1.8, 0.0⟩,
   ⟨"g18_rec709", ⟨0.640, 0.330⟩, ⟨0.300, 0.600⟩, ⟨0.150, 0.060⟩, WP_D65, 1.8, 0.0⟩,
   ⟨"g22_ap1", ⟨0.713, 0.293⟩, ⟨0.165, 0.830⟩, ⟨0.128, 0.044⟩, WP_ACES, 2.2, 0.0⟩,
   ⟨"g22_rec709", ⟨0.640, 0.330⟩, ⟨0.300, 0.600⟩, ⟨0.150, 0.060⟩, WP_D65, 2.2, 0.0⟩,
   ⟨"lin_adobergb", ⟨0.64, 0.33⟩, ⟨0.21, 0.71⟩, ⟨0.15, 0.06⟩, WP_D65, 1.0, 0.0⟩,
   ⟨"lin_ap0", ⟨0.7347, 0.2653⟩, ⟨0.0000, 1.0000⟩, ⟨0.0001, -0.0770⟩, WP_ACES, 1.0, 0.0⟩,
   ⟨"lin_ap1", ⟨0.713, 0.293⟩, ⟨0.165, 0.830⟩, ⟨0.128, 0.044⟩, WP_ACES, 1.0, 0.0⟩,
   ⟨"lin_displayp3", ⟨0.6800, 0.3200⟩, ⟨0.2650, 0.6900⟩, ⟨0.1500, 0.0600⟩, WP_D65, 1.0, 0.0⟩,
   ⟨"lin_rec709", ⟨0.640, 0.330⟩, ⟨0.300, 0.600⟩, ⟨0.150, 0.060⟩, WP_D65, 1.0, 0.0⟩,
   ⟨"lin_rec2020", ⟨0.708, 0.292⟩, ⟨0.170, 0.797⟩, ⟨0.131, 0.046⟩, WP_D65, 1.0, 0.0⟩,
   ⟨"lin_srgb", ⟨0.640, 0.330⟩, ⟨0.300, 0.600⟩, ⟨0.150, 0.060⟩, WP_D65, 1.0, 0.0⟩,
   ⟨"srgb_displayp3", ⟨0.6800, 0.3200⟩, ⟨0.2650, 0.6900⟩, ⟨0.1500, 0.0600⟩, WP_D65, 2.4, 0.055⟩,
   ⟨"sRGB", ⟨0.640, 0.330⟩, ⟨0.300, 0.600⟩, ⟨0.150, 0.060⟩, WP_D65, 2.4, 0.055⟩,
   ⟨"srgb_texture", ⟨0.640, 0.330⟩, ⟨0.300, 0.600⟩, ⟨0.150, 0.060⟩, WP_D65, 2.4, 0.055⟩,
   ⟨"identity", ⟨1.0, 0.0⟩, ⟨0.0, 1.0⟩, ⟨0.0, 0.0⟩, ⟨1/3, 1/3⟩, 1.0, 0.0⟩,
   ⟨"raw", ⟨1.0, 0.0⟩, ⟨0.0, 1.0⟩, ⟨0.0, 0.0⟩, ⟨1/3, 1/3⟩, 1.0, 0.0⟩]

/-- The process-wide registry type: the global _color_space_library
(nanocolor.py:345) is a name-to-ColorSpace mapping, modelled as an
association list. -/
def Registry := List (String × ColorSpace)

/-- Mirrors init_color_space_library (nanocolor.py:348-354): clear and rebuild
the registry from the fixed table; none if any construction raised. -/
def init_color_space_library : Option Registry :=
  COLOR_SPACES.mapM fun d => (create_color_space d).map fun cs => (d.name, cs)

/-- Mirrors ColorSpace.from_linear (nanocolor.py:230-235). -/
noncomputable def ColorSpace.from_linear (cs : ColorSpace) (t : ℝ) : ℝ :=
  if t < (cs.k0 : ℝ) / cs.phi then t * cs.phi
  else (1 + (cs.descriptor.linear_bias : ℝ)) * t ^ (1 / (cs.descriptor.gamma : ℝ)) -
    (cs.descriptor.linear_bias : ℝ)

/-- Mirrors ColorSpace.to_linear (nanocolor.py:237-242). -/
noncomputable def ColorSpace.to_linear (cs : ColorSpace) (t : ℝ) : ℝ :=
  if t < (cs.k0 : ℝ) then t / cs.phi
  else ((t + (cs.descriptor.linear_bias : ℝ)) / (1 + (cs.descriptor.linear_bias : ℝ))) ^
    (cs.descriptor.gamma : ℝ)

/-- Mirrors transform_color (nanocolor.py:378-390): linearize in the source
space, apply dst.get_xyz_to_rgb_matrix() (an inversion, which can raise -
none) times src's RGB to XYZ matrix, and re-encode in the destination space. -/
noncomputable def transform_color (dst src : ColorSpace) (c : RGB) : Option RGB :=
  (dst.rgb_to_xyz.invert).map fun xyzToRgbM =>
    let lin : RGB := ⟨src.to_linear c.r, src.to_linear c.g, src.to_linear c.b⟩
    let tm := xyzToRgbM.multiply src.rgb_to_xyz
    let tl := tm.transform_rgb lin
    ⟨dst.from_linear tl.r, dst.from_linear tl.g, dst.from_linear tl.b⟩

/-- Mirrors xyz_to_yxy (nanocolor.py:417-422). -/
def xyz_to_yxy (xyz : XYZ) : Yxy :=
  if xyz.x + xyz.y + xyz.z = 0 then ⟨xyz.y, 0, 0⟩
  else ⟨xyz.y, xyz.x / (xyz.x + xyz.y + xyz.z), xyz.y / (xyz.x + xyz.y + xyz.z)⟩

/-- Mirrors yxy_to_xyz (nanocolor.py:425-431). -/
def yxy_to_xyz (yxy : Yxy) : XYZ :=
  if yxy.y = 0 then ⟨0, 0, 0⟩
  else ⟨yxy.Y * yxy.x / yxy.y, yxy.Y, yxy.Y * (1 - yxy.x - yxy.y) / yxy.y⟩

/-- The temperature clamp of kelvin_to_yxy (nanocolor.py:451):
max(1000.0, min(15000.0, temperature)). -/
def kelvinTemp (temperature : ℚ) : ℚ := max 1000 (min 15000 temperature)

/-- The chromaticity x of kelvin_to_yxy (nanocolor.py:455-458), as a function
of the clamped temperature (the local variable x of the source). -/
def kelvinX (temp : ℚ) : ℚ :=
  if temp < 4000 then
    -0.2661239 * (1e9 / (temp * temp * temp)) - 0.2343589 * (1e6 / (temp * temp)) +
      0.8776956 * (1e3 / temp) + 0.179910
  else
    -3.0258469 * (1e9 / (temp * temp * temp)) + 2.1070379 * (1e6 / (temp * temp)) +
      0.2226347 * (1e3 / temp) + 0.240390

/-- The chromaticity y of kelvin_to_yxy (nanocolor.py:461-466), as a function
of the clamped temperature and of x (the local variable y of the source). -/
def kelvinY (temp x : ℚ) : ℚ :=
  if temp < 2222 then
    -1.1063814 * (x * x * x) - 1.34811020 * (x * x) + 2.18555832 * x - 0.20219683
  else if temp < 4000 then
    -0.9549476 * (x * x * x) - 1.37418593 * (x * x) + 2.09137015 * x - 0.16748867
  else
    3.0817580 * (x * x * x) - 5.87338670 * (x * x) + 3.75112997 * x - 0.37001483

/-- Mirrors kelvin_to_yxy (nanocolor.py:440-468): clamp the temperature to
[1000, 15000], evaluate one of two reciprocal-temperature cubics for the
chromaticity x, then one of three cubics in x for y; the source's local
variables temp, x, y are the named functions above. -/
def kelvin_to_yxy (temperature luminosity : ℚ) : Yxy :=
  ⟨luminosity, kelvinX (kelvinTemp temperature),
   kelvinY (kelvinTemp temperature) (kelvinX (kelvinTemp temperature))⟩

/-- Modelled from the spec (section 4.3): the chromaticity x as a cubic
polynomial in the reciprocal temperature u = 1000/T, one branch for
T < 4000 K and another for T >= 4000 K. -/
def kelvinSpecX (t : ℚ) : ℚ :=
  if t < 4000 then
    -0.2661239 * (1000 / t) ^ 3 - 0.2343589 * (1000 / t) ^ 2 +
      0.8776956 * (1000 / t) + 0.179910
  else
    -3.0258469 * (1000 / t) ^ 3 + 2.1070379 * (1000 / t) ^ 2 +
      0.2226347 * (1000 / t) + 0.240390

/-- Modelled from the spec (section 4.3): y as one of three cubic polynomials
in x selected by T < 2222 K / T < 4000 K / otherwise. -/
def kelvinSpecY (t x : ℚ) : ℚ :=
  if t < 2222 then
    -1.1063814 * x ^ 3 - 1.34811020 * x ^ 2 + 2.18555832 * x - 0.20219683
  else if t < 4000 then
    -0.9549476 * x ^ 3 - 1.37418593 * x ^ 2 + 2.09137015 * x - 0.16748867
  else
    3.0817580 * x ^ 3 - 5.87338670 * x ^ 2 + 3.75112997 * x - 0.37001483

/-- Modelled from the spec (section 4.3): kelvinToYxy clamps T to
[1000, 15000] K, computes x via the piecewise cubic in u = 1000/T, computes
y(x) via one of three cubics in x, and returns Yxy(luminosity, x, y). -/
def kelvinToYxySpec (temperature luminosity : ℚ) : Yxy :=
  ⟨luminosity,
   kelvinSpecX (max 1000 (min 15000 temperature)),
   kelvinSpecY (max 1000 (min 15000 temperature))
     (kelvinSpecX (max 1000 (min 15000 temperature)))⟩

/-- Mirrors the inner helper chromaticity_close of match_linear_color_space
(nanocolor.py:488-489): both axes within eps, strict absolute difference. -/
def chromaticity_close (c1 c2 : Chromaticity) (eps : ℚ) : Bool :=
  decide (|c1.x - c2.x| < eps) && decide (|c1.y - c2.y| < eps)

/-- Mirrors match_linear_color_space (nanocolor.py:471-502): scan the fixed
table in declaration order, skipping entries whose gamma is not 1, and return
the name of the first entry whose four chromaticities are all within eps. -/
def match_linear_color_space (red_primary green_primary blue_primary white_point : Chromaticity)
    (eps : ℚ) : Option String :=
  (COLOR_SPACES.find? fun d =>
    d.gamma == 1 &&
    chromaticity_close d.red_primary red_primary eps &&
    chromaticity_close d.green_primary green_primary eps &&
    chromaticity_close d.blue_primary blue_primary eps &&
    chromaticity_close d.white_point white_point eps).map ColorSpaceDescriptor.name

/-- The state-passing reading of match_linear_color_space: the source function
reads only the module-level constant COLOR_SPACES and never touches the
mutable registry _color_space_library, so as a state transformer over the
registry it returns its result together with the untouched state. -/
def match_linear_color_space_st (reg : Registry)
    (red_primary green_primary blue_primary white_point : Chromaticity) (eps : ℚ) :
    Option String × Registry :=
  (match_linear_color_space red_primary green_primary blue_primary white_point eps, reg)

/-- Spec-side matching predicate for one table entry (section 4.3 of the
spec): gamma is exactly 1 and each of the four chromaticities agrees with the
query within eps on each axis. -/
def MatchesLinear (d : ColorSpaceDescriptor)
    (red_primary green_primary blue_primary white_point : Chromaticity) (eps : ℚ) : Prop :=
  d.gamma = 1 ∧
  |d.red_primary.x - red_primary.x| < eps ∧ |d.red_primary.y - red_primary.y| < eps ∧
  |d.green_primary.x - green_primary.x| < eps ∧ |d.green_primary.y - green_primary.y| < eps ∧
  |d.blue_primary.x - blue_primary.x| < eps ∧ |d.blue_primary.y - blue_primary.y| < eps ∧
  |d.white_point.x - white_point.x| < eps ∧ |d.white_point.y - white_point.y| < eps

/-- Closeness of an optional RGB result to a target, component-wise within
eps; False when the computation failed.  Used to state round-trip bounds. -/
def closeRGB (o : Option RGB) (c : RGB) (eps : ℝ) : Prop :=
  match o with
  | none => False
  | some u => |u.r - c.r| ≤ eps ∧ |u.g - c.g| ≤ eps ∧ |u.b - c.b| ≤ eps

/-- Interpret an M33 as a Mathlib 3x3 matrix over ℚ (row-major). -/
def M33.toMatrix (a : M33) : Matrix (Fin 3) (Fin 3) ℚ :=
  !![a.m0, a.m1, a.m2; a.m3, a.m4, a.m5; a.m6, a.m7, a.m8]

/-! ## Helper lemmas about matrix inversion -/

theorem M33.invert_eq_none_iff (a : M33) : a.invert = none ↔ |a.det| < 1e-10 := by
  unfold M33.invert
  split <;> simp_all

theorem M33.invert_mul_left {a n : M33} (h : a.invert = some n) :
    n.multiply a = M33.identity := by
  have hdet : ¬ |a.det| < 1e-10 := fun hc => by simp [M33.invert, hc] at h
  have hd0 : a.det ≠ 0 := fun h0 => hdet (by rw [h0]; norm_num)
  rw [M33.invert, if_neg hdet] at h
  obtain ⟨m0, m1, m2, m3, m4, m5, m6, m7, m8⟩ := a
  obtain rfl := (Option.some.inj h).symm
  simp only [M33.det] at hd0
  simp only [M33.multiply, M33.identity, M33.det, M33.mk.injEq]
  refine ⟨?_, ?_, ?_, ?_, ?_, ?_, ?_, ?_, ?_⟩ <;> (field_simp; ring)

theorem M33.invert_mul_right {a n : M33} (h : a.invert = some n) :
    a.multiply n = M33.identity := by
  have hdet : ¬ |a.det| < 1e-10 := fun hc => by simp [M33.invert, hc] at h
  have hd0 : a.det ≠ 0 := fun h0 => hdet (by rw [h0]; norm_num)
  rw [M33.invert, if_neg hdet] at h
  obtain ⟨m0, m1, m2, m3, m4, m5, m6, m7, m8⟩ := a
  obtain rfl := (Option.some.inj h).symm
  simp only [M33.det] at hd0
  simp only [M33.multiply, M33.identity, M33.det, M33.mk.injEq]
  refine ⟨?_, ?_, ?_, ?_, ?_, ?_, ?_, ?_, ?_⟩ <;> (field_simp; ring)

theorem M33.toMatrix_multiply (a b : M33) :
    (a.multiply b).toMatrix = a.toMatrix * b.toMatrix := by
  rw [M33.toMatrix, M33.toMatrix, M33.toMatrix, Matrix.mul_fin_three]
  ext i j
  fin_cases i <;> fin_cases j <;> simp [M33.multiply]

theorem M33.toMatrix_identity : M33.identity.toMatrix = 1 := by
  simp [M33.toMatrix, M33.identity, Matrix.one_fin_three]

theorem M33.det_toMatrix (a : M33) : a.toMatrix.det = a.det := by
  simp only [M33.toMatrix, M33.det, Matrix.det_fin_three]
  simp [Matrix.cons_val_zero, Matrix.cons_val_one]
  ring

/-- C6: M33f.invert fails (none, modelling the ValueError of
nanocolor.py:104) if and only if |det| < 1e-10; being a plain function of the
matrix it is deterministic; and when it succeeds it returns the closed-form
adjugate/determinant inverse: its result is a two-sided inverse of the input
and coincides with the Mathlib matrix inverse (which is by definition
Ring.inverse det • adjugate).  The first conjunct ties the source's inline
determinant to the mathematical determinant. -/
theorem invert_characterization (A : M33) :
    (M33.toMatrix A).det = A.det ∧
    (A.invert = none ↔ |A.det| < 1e-10) ∧
    ∀ N, A.invert = some N →
      M33.toMatrix N * M33.toMatrix A = 1 ∧
      M33.toMatrix A * M33.toMatrix N = 1 ∧
      M33.toMatrix N = (M33.toMatrix A)⁻¹ := by
  refine ⟨M33.det_toMatrix A, A.invert_eq_none_iff, fun N h => ?_⟩
  have hL : M33.toMatrix N * M33.toMatrix A = 1 := by
    rw [← M33.toMatrix_multiply, M33.invert_mul_left h, M33.toMatrix_identity]
  have hR : M33.toMatrix A * M33.toMatrix N = 1 := by
    rw [← M33.toMatrix_multiply, M33.invert_mul_right h, M33.toMatrix_identity]
  exact ⟨hL, hR, (Matrix.inv_eq_left_inv hL).symm⟩

/-- Witness for invert_characterization, at the identity matrix. -/
theorem invert_characterization_witness :
    M33.toMatrix M33.identity * M33.toMatrix M33.identity = 1 ∧
    M33.toMatrix M33.identity * M33.toMatrix M33.identity = 1 ∧
    M33.toMatrix M33.identity = (M33.toMatrix M33.identity)⁻¹ :=
  (invert_characterization M33.identity).2.2 M33.identity
    (by norm_num [M33.invert, M33.det, M33.identity])

/-- C3 counterexample: the claim fails as stated.  XYZ(1, 0, 0) has non-zero
coordinate sum, yet the round trip returns XYZ(0, 0, 0) (the chromaticity
produced by xyz_to_yxy has y-component 0, so yxy_to_xyz takes its degenerate
branch, nanocolor.py:427-428); the error in the first component is 1, far
beyond any round-trip tolerance. -/
theorem yxy_roundtrip_fails_on_zero_y :
    (1 : ℚ) + 0 + 0 ≠ 0 ∧
    yxy_to_xyz (xyz_to_yxy ⟨1, 0, 0⟩) = XYZ.mk 0 0 0 ∧
    XYZ.mk 0 0 0 ≠ XYZ.mk 1 0 0 := by
  norm_num [xyz_to_yxy, yxy_to_xyz]

/-- C3 amended: for every XYZ value with non-zero coordinate sum AND non-zero
y component, the Yxy round trip is the identity (exactly, hence within any
tolerance). -/
theorem yxy_roundtrip (v : XYZ) (hs : v.x + v.y + v.z ≠ 0) (hy : v.y ≠ 0) :
    yxy_to_xyz (xyz_to_yxy v) = v := by
  obtain ⟨x, y, z⟩ := v
  simp only at hs hy
  rw [xyz_to_yxy, if_neg hs]
  rw [yxy_to_xyz]
  simp only
  rw [if_neg (div_ne_zero hy hs)]
  simp only [XYZ.mk.injEq]
  refine ⟨?_, trivial, ?_⟩ <;> (field_simp; try ring)

/-- Witness for yxy_roundtrip at XYZ(1, 1, 1). -/
theorem yxy_roundtrip_witness :
    yxy_to_xyz (xyz_to_yxy ⟨1, 1, 1⟩) = XYZ.mk 1 1 1 :=
  yxy_roundtrip ⟨1, 1, 1⟩ (by norm_num) (by norm_num)

/-- C4 counterexample: the invariant does not hold on every construction
path.  create_color_space_m33 accepts the all-zero matrix unchecked, and
create_color_space with the sentinel white point (x = 0) keeps the default
all-zero matrix; both produce a ColorSpace whose matrix has determinant 0,
below the 1e-10 invertibility threshold. -/
theorem constructed_space_singular_example :
    create_color_space_m33 ⟨"zero", M33.zero, 1, 0⟩ =
      some ⟨⟨"zero", ⟨0, 0⟩, ⟨0, 0⟩, ⟨0, 0⟩, ⟨0, 0⟩, 1, 0⟩, M33.zero⟩ ∧
    create_color_space ⟨"adhoc", ⟨1, 0⟩, ⟨0, 1⟩, ⟨0, 0⟩, ⟨0, 0⟩, 1, 0⟩ =
      some ⟨⟨"adhoc", ⟨1, 0⟩, ⟨0, 1⟩, ⟨0, 0⟩, ⟨0, 0⟩, 1, 0⟩, M33.zero⟩ ∧
    |M33.zero.det| < 1e-10 := by
  norm_num [create_color_space_m33, create_color_space, coeffsOK, M33.zero, M33.det]

set_option maxHeartbeats 8000000 in
/-- Evaluation of the eighteen built-in constructions: each succeeds with a
derived matrix whose determinant clears the 1e-10 inversion threshold.
Shared by the invertibility and round-trip theorems. -/
theorem builtin_det_ge (d : ColorSpaceDescriptor) (hd : d ∈ COLOR_SPACES) :
    ∀ cs, create_color_space d = some cs → 1e-10 ≤ |cs.rgb_to_xyz.det| := by
  simp only [COLOR_SPACES, WP_D65, WP_ACES, List.mem_cons, List.not_mem_nil, or_false] at hd
  rcases hd with rfl | rfl | rfl | rfl | rfl | rfl | rfl | rfl | rfl | rfl | rfl | rfl | rfl |
    rfl | rfl | rfl | rfl | rfl <;>
  · intro cs hcs
    norm_num [create_color_space, coeffsOK, deriveMatrix, Pmatrix, M33.invert, M33.det,
      abs_div] at hcs
    obtain rfl := hcs
    norm_num [M33.det, abs_div]

/-- C4 amended: every ColorSpace constructed from a descriptor of the
built-in table COLOR_SPACES (the registered spaces) has an RGB to XYZ matrix
with |det| at least 1e-10, i.e. one that M33f.invert accepts. -/
theorem builtin_spaces_invertible :
    ∀ d ∈ COLOR_SPACES, ∀ cs, create_color_space d = some cs →
      1e-10 ≤ |cs.rgb_to_xyz.det| :=
  fun d hd => builtin_det_ge d hd

/-- Witness for builtin_spaces_invertible at the built-in identity space. -/
theorem builtin_spaces_invertible_witness :
    (1e-10 : ℚ) ≤ |M33.identity.det| :=
  builtin_spaces_invertible
    ⟨"identity", ⟨1.0, 0.0⟩, ⟨0.0, 1.0⟩, ⟨0.0, 0.0⟩, ⟨1/3, 1/3⟩, 1.0, 0.0⟩
    (by simp [COLOR_SPACES])
    ⟨⟨"identity", ⟨1.0, 0.0⟩, ⟨0.0, 1.0⟩, ⟨0.0, 0.0⟩, ⟨1/3, 1/3⟩, 1.0, 0.0⟩, M33.identity⟩
    (by norm_num [create_color_space, coeffsOK, deriveMatrix, Pmatrix, M33.invert, M33.det,
      M33.identity, abs_div])

/-- C5 counterexample: the matrix-only dispatch is keyed on white_point.x == 0
alone (nanocolor.py:191), not on the whole white point being zero.  The
descriptor below has white point (0, 1/2), which is not all-zero, and its
primaries derivation would succeed (second conjunct), yet construction keeps
the default all-zero matrix, i.e. the derivation is skipped. -/
theorem matrix_only_dispatch_not_all_zero :
    create_color_space ⟨"wpx0", ⟨1, 0⟩, ⟨0, 1⟩, ⟨0, 0⟩, ⟨0, 1/2⟩, 1, 0⟩ =
      some ⟨⟨"wpx0", ⟨1, 0⟩, ⟨0, 1⟩, ⟨0, 0⟩, ⟨0, 1/2⟩, 1, 0⟩, M33.zero⟩ ∧
    deriveMatrix ⟨"wpx0", ⟨1, 0⟩, ⟨0, 1⟩, ⟨0, 0⟩, ⟨0, 1/2⟩, 1, 0⟩ =
      some ⟨0, 0, 0, 0, 1, 0, 0, 0, 1⟩ ∧
    Chromaticity.mk 0 (1/2) ≠ ⟨0, 0⟩ := by
  norm_num [create_color_space, coeffsOK, deriveMatrix, Pmatrix, M33.invert, M33.det,
    M33.zero, abs_div]

/-- C5 amended: for every descriptor whose transfer-coefficient computation
succeeds, construction keeps the default (all-zero) matrix exactly when the
white point's x coordinate is zero, and runs the primaries derivation exactly
when it is non-zero. -/
theorem constructor_dispatch_on_white_x (d : ColorSpaceDescriptor)
    (hc : coeffsOK d.gamma d.linear_bias = true) :
    (d.white_point.x = 0 → create_color_space d = some ⟨d, M33.zero⟩) ∧
    (d.white_point.x ≠ 0 →
      create_color_space d = (deriveMatrix d).map fun m => ⟨d, m⟩) := by
  constructor
  · intro hx
    rw [create_color_space, if_pos hc, if_pos hx]
  · intro hx
    rw [create_color_space, if_pos hc, if_neg hx]

/-- Witness for constructor_dispatch_on_white_x at a descriptor with
white point (0, 1/2). -/
theorem constructor_dispatch_on_white_x_witness :
    create_color_space ⟨"wpx0", ⟨1, 0⟩, ⟨0, 1⟩, ⟨0, 0⟩, ⟨0, 1/2⟩, 1, 0⟩ =
      some ⟨⟨"wpx0", ⟨1, 0⟩, ⟨0, 1⟩, ⟨0, 0⟩, ⟨0, 1/2⟩, 1, 0⟩, M33.zero⟩ :=
  (constructor_dispatch_on_white_x _ (by simp [coeffsOK])).1 rfl

/-- The source's x cubic agrees with the spec's cubic in u = 1000/t whenever
t is non-zero (always true after clamping). -/
theorem kelvinX_eq_spec (t : ℚ) (ht : t ≠ 0) : kelvinX t = kelvinSpecX t := by
  rw [kelvinX, kelvinSpecX]
  split_ifs <;> (field_simp; ring)

/-- The source's y cubics agree with the spec's cubics in x. -/
theorem kelvinY_eq_spec (t x : ℚ) : kelvinY t x = kelvinSpecY t x := by
  rw [kelvinY, kelvinSpecY]
  split_ifs <;> ring

/-- C7: kelvin_to_yxy is total (it is a plain function into Yxy, with the
clamped temperature at least 1000 so no division by zero can occur); its
result equals kelvin_to_yxy of the temperature clamped to [1000, 15000]
(silent clamping); its Y component is the luminosity; and it agrees with the
spec-side piecewise-cubic description kelvinToYxySpec. -/
theorem kelvin_to_yxy_clamped_piecewise (T L : ℚ) :
    kelvin_to_yxy T L = kelvin_to_yxy (max 1000 (min 15000 T)) L ∧
    (kelvin_to_yxy T L).Y = L ∧
    kelvin_to_yxy T L = kelvinToYxySpec T L := by
  have h1 : (1000 : ℚ) ≤ kelvinTemp T := le_max_left _ _
  have ht0 : kelvinTemp T ≠ 0 := fun h => by rw [h] at h1; norm_num at h1
  have hidem : kelvinTemp (max 1000 (min 15000 T)) = kelvinTemp T := by
    have h2 : kelvinTemp T ≤ 15000 := max_le (by norm_num) (min_le_left _ _)
    rw [kelvinTemp, show max 1000 (min 15000 T) = kelvinTemp T from rfl,
      min_eq_right h2, max_eq_right h1]
  refine ⟨?_, rfl, ?_⟩
  · rw [kelvin_to_yxy, kelvin_to_yxy, hidem]
  · rw [kelvin_to_yxy, kelvinToYxySpec,
      show max 1000 (min 15000 T) = kelvinTemp T from rfl,
      kelvinX_eq_spec _ ht0, kelvinY_eq_spec]

/-- C10: match_linear_color_space reads only the fixed table COLOR_SPACES:
as a state transformer over the registry, its result is the same in any two
registry states, and it leaves the registry unchanged. -/
theorem match_linear_color_space_state_independent
    (reg1 reg2 : Registry) (r g b w : Chromaticity) (e : ℚ) :
    (match_linear_color_space_st reg1 r g b w e).1 =
      (match_linear_color_space_st reg2 r g b w e).1 ∧
    (match_linear_color_space_st reg1 r g b w e).2 = reg1 :=
  ⟨rfl, rfl⟩

/-- The Bool predicate scanned by match_linear_color_space holds exactly when
the spec-side predicate MatchesLinear does. -/
theorem matchesLinear_bool_iff (d : ColorSpaceDescriptor)
    (r g b w : Chromaticity) (e : ℚ) :
    ((d.gamma == 1 &&
      chromaticity_close d.red_primary r e &&
      chromaticity_close d.green_primary g e &&
      chromaticity_close d.blue_primary b e &&
      chromaticity_close d.white_point w e) = true) ↔
    MatchesLinear d r g b w e := by
  simp [MatchesLinear, chromaticity_close, and_assoc]

/-- C8: match_linear_color_space considers only catalogued entries with gamma
exactly 1 whose four chromaticities are within eps per axis (the predicate
MatchesLinear); it returns none iff no table entry matches, and it returns
some n iff n names the first matching entry in declared table order (the
table splits as pre ++ d :: post with no entry of pre matching). -/
theorem match_linear_color_space_characterization
    (r g b w : Chromaticity) (e : ℚ) :
    (match_linear_color_space r g b w e = none ↔
      ∀ d ∈ COLOR_SPACES, ¬ MatchesLinear d r g b w e) ∧
    (∀ n, match_linear_color_space r g b w e = some n ↔
      ∃ d pre post, COLOR_SPACES = pre ++ d :: post ∧ d.name = n ∧
        MatchesLinear d r g b w e ∧
        ∀ d2 ∈ pre, ¬ MatchesLinear d2 r g b w e) := by
  constructor
  · rw [match_linear_color_space, Option.map_eq_none', List.find?_eq_none]
    constructor
    · intro h d hd hm
      exact h d hd ((matchesLinear_bool_iff d r g b w e).mpr hm)
    · intro h d hd hp
      exact h d hd ((matchesLinear_bool_iff d r g b w e).mp hp)
  · intro n
    rw [match_linear_color_space]
    constructor
    · intro h
      obtain ⟨d, hfind, hname⟩ := Option.map_eq_some'.mp h
      obtain ⟨hp, pre, post, hsplit, hpre⟩ := List.find?_eq_some.mp hfind
      refine ⟨d, pre, post, hsplit, hname,
        (matchesLinear_bool_iff d r g b w e).mp hp, ?_⟩
      intro d2 hd2 hm
      have h2 := hpre d2 hd2
      rw [Bool.not_eq_eq_eq_not, Bool.not_true] at h2
      exact absurd ((matchesLinear_bool_iff d2 r g b w e).mpr hm)
        (by rw [h2]; exact Bool.false_ne_true)
    · rintro ⟨d, pre, post, hsplit, hname, hm, hpre⟩
      refine Option.map_eq_some'.mpr ⟨d, ?_, hname⟩
      refine List.find?_eq_some.mpr
        ⟨(matchesLinear_bool_iff d r g b w e).mpr hm, pre, post, hsplit, ?_⟩
      intro a ha
      rw [Bool.not_eq_eq_eq_not, Bool.not_true, Bool.eq_false_iff]
      intro hp
      exact hpre a ha ((matchesLinear_bool_iff a r g b w e).mp hp)

/-- Witness for match_linear_color_space_characterization: querying the
Rec.709 primaries with the D65 white point returns lin_rec709, the first
gamma-1 table entry carrying those chromaticities. -/
theorem match_linear_color_space_characterization_witness :
    match_linear_color_space ⟨0.640, 0.330⟩ ⟨0.300, 0.600⟩ ⟨0.150, 0.060⟩
      ⟨0.3127, 0.3290⟩ 1e-4 = some "lin_rec709" := by
  apply ((match_linear_color_space_characterization
    ⟨0.640, 0.330⟩ ⟨0.300, 0.600⟩ ⟨0.150, 0.060⟩ ⟨0.3127, 0.3290⟩ 1e-4).2 "lin_rec709").mpr
  refine ⟨⟨"lin_rec709", ⟨0.640, 0.330⟩, ⟨0.300, 0.600⟩, ⟨0.150, 0.060⟩, WP_D65, 1.0, 0.0⟩,
    [⟨"acescg", ⟨0.713, 0.293⟩, ⟨0.165, 0.830⟩, ⟨0.128, 0.044⟩, WP_ACES, 1.0, 0.0⟩,
     ⟨"adobergb", ⟨0.64, 0.33⟩, ⟨0.21, 0.71⟩, ⟨0.15, 0.06⟩, WP_D65, 2.2, 0.0⟩,
     ⟨"g18_ap1", ⟨0.713, 0.293⟩, ⟨0.165, 0.830⟩, ⟨0.128, 0.044⟩, WP_ACES, 1.8, 0.0⟩,
     ⟨"g18_rec709", ⟨0.640, 0.330⟩, ⟨0.300, 0.600⟩, ⟨0.150, 0.060⟩, WP_D65, 1.8, 0.0⟩,
     ⟨"g22_ap1", ⟨0.713, 0.293⟩, ⟨0.165, 0.830⟩, ⟨0.128, 0.044⟩, WP_ACES, 2.2, 0.0⟩,
     ⟨"g22_rec709", ⟨0.640, 0.330⟩, ⟨0.300, 0.600⟩, ⟨0.150, 0.060⟩, WP_D65, 2.2, 0.0⟩,
     ⟨"lin_adobergb", ⟨0.64, 0.33⟩, ⟨0.21, 0.71⟩, ⟨0.15, 0.06⟩, WP_D65, 1.0, 0.0⟩,
     ⟨"lin_ap0", ⟨0.7347, 0.2653⟩, ⟨0.0000, 1.0000⟩, ⟨0.0001, -0.0770⟩, WP_ACES, 1.0, 0.0⟩,
     ⟨"lin_ap1", ⟨0.713, 0.293⟩, ⟨0.165, 0.830⟩, ⟨0.128, 0.044⟩, WP_ACES, 1.0, 0.0⟩,
     ⟨"lin_displayp3", ⟨0.6800, 0.3200⟩, ⟨0.2650, 0.6900⟩, ⟨0.1500, 0.0600⟩, WP_D65, 1.0, 0.0⟩],
    [⟨"lin_rec2020", ⟨0.708, 0.292⟩, ⟨0.170, 0.797⟩, ⟨0.131, 0.046⟩, WP_D65, 1.0, 0.0⟩,
     ⟨"lin_srgb", ⟨0.640, 0.330⟩, ⟨0.300, 0.600⟩, ⟨0.150, 0.060⟩, WP_D65, 1.0, 0.0⟩,
     ⟨"srgb_displayp3", ⟨0.6800, 0.3200⟩, ⟨0.2650, 0.6900⟩, ⟨0.1500, 0.0600⟩, WP_D65, 2.4, 0.055⟩,
     ⟨"sRGB", ⟨0.640, 0.330⟩, ⟨0.300, 0.600⟩, ⟨0.150, 0.060⟩, WP_D65, 2.4, 0.055⟩,
     ⟨"srgb_texture", ⟨0.640, 0.330⟩, ⟨0.300, 0.600⟩, ⟨0.150, 0.060⟩, WP_D65, 2.4, 0.055⟩,
     ⟨"identity", ⟨1.0, 0.0⟩, ⟨0.0, 1.0⟩, ⟨0.0, 0.0⟩, ⟨1/3, 1/3⟩, 1.0, 0.0⟩,
     ⟨"raw", ⟨1.0, 0.0⟩, ⟨0.0, 1.0⟩, ⟨0.0, 0.0⟩, ⟨1/3, 1/3⟩, 1.0, 0.0⟩],
    rfl, rfl, ?_, ?_⟩
  · norm_num [MatchesLinear, WP_D65, abs_div]
  · intro d2 hd2
    fin_cases hd2 <;> norm_num [MatchesLinear, WP_D65, WP_ACES, abs_div]

/-! ## Transfer-function round trips (the three parameter regimes occurring
in the built-in table) -/

theorem from_to_linear_gamma_one (cs : ColorSpace) (hγ : cs.descriptor.gamma = 1)
    (ha : cs.descriptor.linear_bias = 0) (t : ℝ) :
    cs.from_linear (cs.to_linear t) = t := by
  have hk : cs.k0 = 1e9 := by rw [ColorSpace.k0, if_pos hγ]
  have hp : cs.phi = 1 := by rw [ColorSpace.phi, if_pos hγ]
  rw [ColorSpace.to_linear, ColorSpace.from_linear, hk, hp, hγ, ha]
  push_cast
  simp only [div_one, mul_one, add_zero, sub_zero, one_mul, Real.rpow_one]
  norm_num

theorem from_to_linear_pure_power (cs : ColorSpace) (hγ1 : cs.descriptor.gamma ≠ 1)
    (hγ0 : 0 < cs.descriptor.gamma) (ha : cs.descriptor.linear_bias = 0) (t : ℝ) :
    cs.from_linear (cs.to_linear t) = t := by
  have hk : cs.k0 = 0 := by rw [ColorSpace.k0, if_neg hγ1, if_pos (le_of_eq ha)]
  have hp : cs.phi = 1 := by rw [ColorSpace.phi, if_neg hγ1, if_pos (le_of_eq ha)]
  have hγR : (0 : ℝ) < (cs.descriptor.gamma : ℝ) := by exact_mod_cast hγ0
  rw [ColorSpace.to_linear, ColorSpace.from_linear, hk, hp, ha]
  push_cast
  simp only [div_one, mul_one, add_zero, sub_zero, one_mul, zero_div]
  rcases lt_or_le t 0 with h | h
  · rw [if_pos h, if_pos h]
  · rw [if_neg (not_lt.mpr h)]
    have hpow : (0 : ℝ) ≤ t ^ (cs.descriptor.gamma : ℝ) := Real.rpow_nonneg h _
    rw [if_neg (not_lt.mpr hpow), ← Real.rpow_mul h,
      mul_one_div_cancel (ne_of_gt hγR), Real.rpow_one]

theorem from_to_linear_srgb_like (cs : ColorSpace) (hγ : 1 < cs.descriptor.gamma)
    (ha : 0 < cs.descriptor.linear_bias) (t : ℝ) :
    cs.from_linear (cs.to_linear t) = t := by
  have hγ1 : cs.descriptor.gamma ≠ 1 := ne_of_gt hγ
  have ha1 : ¬ cs.descriptor.linear_bias ≤ 0 := not_le.mpr ha
  set γ : ℝ := (cs.descriptor.gamma : ℝ) with hγdef
  set a : ℝ := (cs.descriptor.linear_bias : ℝ) with hadef
  have hγR : (1 : ℝ) < γ := by rw [hγdef]; exact_mod_cast hγ
  have haR : (0 : ℝ) < a := by rw [hadef]; exact_mod_cast ha
  have hγ0 : (0 : ℝ) < γ := lt_trans one_pos hγR
  have hkR : ((cs.k0 : ℚ) : ℝ) = a / (γ - 1) := by
    rw [ColorSpace.k0, if_neg hγ1, if_neg ha1]
    push_cast
    rfl
  have hk0pos : (0 : ℝ) < ((cs.k0 : ℚ) : ℝ) := by
    rw [hkR]
    exact div_pos haR (by linarith)
  set b : ℝ := γ * a / (γ + γ * a - 1 - a) with hbdef
  have hdenpos : (0 : ℝ) < γ + γ * a - 1 - a := by nlinarith
  have hbpos : (0 : ℝ) < b := div_pos (mul_pos hγ0 haR) hdenpos
  have hphi : cs.phi = (a / b ^ γ) / (γ - 1) := by
    rw [ColorSpace.phi, if_neg hγ1, if_neg ha1, ← hγdef, ← hadef, ← hbdef,
      ← Real.rpow_def_of_pos hbpos]
  have hbγpos : (0 : ℝ) < b ^ γ := Real.rpow_pos_of_pos hbpos γ
  have hphipos : (0 : ℝ) < cs.phi := by
    rw [hphi]
    exact div_pos (div_pos haR hbγpos) (by linarith)
  have hkphi : ((cs.k0 : ℚ) : ℝ) / cs.phi = b ^ γ := by
    have hne1 : a ≠ 0 := ne_of_gt haR
    have hne2 : γ - 1 ≠ 0 := by linarith
    have hne3 : b ^ γ ≠ 0 := ne_of_gt hbγpos
    rw [hkR, hphi, div_eq_iff (by rw [← hphi]; exact ne_of_gt hphipos)]
    field_simp
    ring
  have hb_eq : b = (((cs.k0 : ℚ) : ℝ) + a) / (1 + a) := by
    rw [hkR, hbdef]
    rw [div_add' _ _ _ (by linarith : γ - 1 ≠ 0), div_div]
    congr 1
    · ring
    · ring
  rw [ColorSpace.to_linear, ColorSpace.from_linear, ← hγdef, ← hadef]
  rcases lt_or_le t ((cs.k0 : ℚ) : ℝ) with h | h
  · rw [if_pos h, if_pos (by rw [div_lt_div_iff_of_pos_right hphipos]; exact h)]
    exact div_mul_cancel₀ t (ne_of_gt hphipos)
  · rw [if_neg (not_lt.mpr h)]
    have hbase : b ≤ (t + a) / (1 + a) := by
      rw [hb_eq, div_le_div_iff_of_pos_right (by linarith : (0:ℝ) < 1 + a)]
      linarith
    have hbasepos : (0 : ℝ) < (t + a) / (1 + a) := lt_of_lt_of_le hbpos hbase
    have hcond : ¬ ((t + a) / (1 + a)) ^ γ < ((cs.k0 : ℚ) : ℝ) / cs.phi := by
      rw [hkphi]
      exact not_lt.mpr (Real.rpow_le_rpow hbpos.le hbase hγ0.le)
    rw [if_neg hcond, ← Real.rpow_mul hbasepos.le,
      mul_one_div_cancel (ne_of_gt hγ0), Real.rpow_one]
    field_simp

/-! ## Plumbing for the construction and self-transform theorems -/

theorem create_color_space_descriptor {d : ColorSpaceDescriptor} {cs : ColorSpace}
    (h : create_color_space d = some cs) : cs.descriptor = d := by
  rw [create_color_space] at h
  by_cases hc : coeffsOK d.gamma d.linear_bias = true
  · rw [if_pos hc] at h
    by_cases hx : d.white_point.x = 0
    · rw [if_pos hx] at h
      exact (congrArg ColorSpace.descriptor (Option.some.inj h)).symm
    · rw [if_neg hx] at h
      obtain ⟨m, _, rfl⟩ := Option.map_eq_some'.mp h
      rfl
  · rw [if_neg hc] at h
    exact Option.noConfusion h

theorem M33.invert_isSome_of {a : M33} (h : 1e-10 ≤ |a.det|) :
    ∃ n, a.invert = some n := by
  rw [M33.invert, if_neg (not_lt.mpr h)]
  exact ⟨_, rfl⟩

theorem M33.transform_rgb_identity (c : RGB) : M33.identity.transform_rgb c = c := by
  obtain ⟨r, g, b⟩ := c
  simp only [M33.transform_rgb, M33.identity, RGB.mk.injEq]
  push_cast
  refine ⟨by ring, by ring, by ring⟩

/-- When a color space's matrix clears the inversion threshold and its
transfer functions are mutually inverse, transforming a color from the space
to itself returns the color unchanged (the transformation matrix is the exact
inverse times the matrix, which is the identity). -/
theorem transform_color_self (cs : ColorSpace) (hdet : 1e-10 ≤ |cs.rgb_to_xyz.det|)
    (hrt : ∀ s : ℝ, cs.from_linear (cs.to_linear s) = s) (c : RGB) :
    transform_color cs cs c = some c := by
  obtain ⟨n, hn⟩ := M33.invert_isSome_of hdet
  have hid : n.multiply cs.rgb_to_xyz = M33.identity := M33.invert_mul_left hn
  rw [transform_color, hn, Option.map_some']
  simp only [hid, M33.transform_rgb_identity, hrt]

set_option maxHeartbeats 1600000 in
/-- Every built-in table entry falls into one of the three transfer-function
parameter regimes: pure linear (gamma 1, bias 0), pure power (gamma in
{1.8, 2.2}, bias 0), or sRGB-like (gamma 2.4, bias 0.055). -/
theorem builtin_gamma_cases (d : ColorSpaceDescriptor) (hd : d ∈ COLOR_SPACES) :
    (d.gamma = 1 ∧ d.linear_bias = 0) ∨
    (d.gamma ≠ 1 ∧ 0 < d.gamma ∧ d.linear_bias = 0) ∨
    (1 < d.gamma ∧ 0 < d.linear_bias) := by
  simp only [COLOR_SPACES, WP_D65, WP_ACES, List.mem_cons, List.not_mem_nil, or_false] at hd
  rcases hd with rfl | rfl | rfl | rfl | rfl | rfl | rfl | rfl | rfl | rfl | rfl | rfl | rfl |
    rfl | rfl | rfl | rfl | rfl <;> norm_num

/-- C1: for every registered color space (an entry of the built-in table,
successfully constructed) and every RGB value with components in [0, 1],
transforming the color from the space to itself returns it unchanged up to
1e-6 per component (in this exact-arithmetic model the round trip is exact,
so the 1e-6 bound holds a fortiori). -/
theorem transform_color_self_registered :
    ∀ d ∈ COLOR_SPACES, ∀ cs, create_color_space d = some cs →
      ∀ r g b : ℝ, 0 ≤ r → r ≤ 1 → 0 ≤ g → g ≤ 1 → 0 ≤ b → b ≤ 1 →
      closeRGB (transform_color cs cs ⟨r, g, b⟩) ⟨r, g, b⟩ 1e-6 := by
  intro d hd cs hcs r g b _ _ _ _ _ _
  have hdet := builtin_det_ge d hd cs hcs
  have hdesc := create_color_space_descriptor hcs
  have hcases := builtin_gamma_cases d hd
  rw [← hdesc] at hcases
  have hrt : ∀ s : ℝ, cs.from_linear (cs.to_linear s) = s := by
    rcases hcases with ⟨h1, h2⟩ | ⟨h1, h2, h3⟩ | ⟨h1, h2⟩
    · exact from_to_linear_gamma_one cs h1 h2
    · exact from_to_linear_pure_power cs h1 h2 h3
    · exact from_to_linear_srgb_like cs h1 h2
  rw [transform_color_self cs hdet hrt ⟨r, g, b⟩]
  simp only [closeRGB, sub_self, abs_zero]
  norm_num

/-- Witness for transform_color_self_registered at the built-in identity
space and the color (1/2, 0, 1). -/
theorem transform_color_self_registered_witness :
    closeRGB (transform_color
      ⟨⟨"identity", ⟨1.0, 0.0⟩, ⟨0.0, 1.0⟩, ⟨0.0, 0.0⟩, ⟨1/3, 1/3⟩, 1.0, 0.0⟩, M33.identity⟩
      ⟨⟨"identity", ⟨1.0, 0.0⟩, ⟨0.0, 1.0⟩, ⟨0.0, 0.0⟩, ⟨1/3, 1/3⟩, 1.0, 0.0⟩, M33.identity⟩
      ⟨1/2, 0, 1⟩) ⟨1/2, 0, 1⟩ 1e-6 :=
  transform_color_self_registered
    ⟨"identity", ⟨1.0, 0.0⟩, ⟨0.0, 1.0⟩, ⟨0.0, 0.0⟩, ⟨1/3, 1/3⟩, 1.0, 0.0⟩
    (by simp [COLOR_SPACES])
    ⟨⟨"identity", ⟨1.0, 0.0⟩, ⟨0.0, 1.0⟩, ⟨0.0, 0.0⟩, ⟨1/3, 1/3⟩, 1.0, 0.0⟩, M33.identity⟩
    (by norm_num [create_color_space, coeffsOK, deriveMatrix, Pmatrix, M33.invert, M33.det,
      M33.identity, abs_div])
    (1/2) 0 1 (by norm_num) (by norm_num) (by norm_num) (by norm_num) (by norm_num)
    (by norm_num)

theorem ColorSpace.phi_pos_srgb_like (cs : ColorSpace) (hγ : 1 < cs.descriptor.gamma)
    (ha : 0 < cs.descriptor.linear_bias) : 0 < cs.phi := by
  have hγ1 : cs.descriptor.gamma ≠ 1 := ne_of_gt hγ
  have ha1 : ¬ cs.descriptor.linear_bias ≤ 0 := not_le.mpr ha
  have haR : (0 : ℝ) < (cs.descriptor.linear_bias : ℝ) := by exact_mod_cast ha
  have hγR : (1 : ℝ) < (cs.descriptor.gamma : ℝ) := by exact_mod_cast hγ
  rw [ColorSpace.phi, if_neg hγ1, if_neg ha1]
  exact div_pos (div_pos haR (Real.exp_pos _)) (by linarith)

theorem ColorSpace.k0_pos_srgb_like (cs : ColorSpace) (hγ : 1 < cs.descriptor.gamma)
    (ha : 0 < cs.descriptor.linear_bias) : (0 : ℝ) < ((cs.k0 : ℚ) : ℝ) := by
  have hγ1 : cs.descriptor.gamma ≠ 1 := ne_of_gt hγ
  have ha1 : ¬ cs.descriptor.linear_bias ≤ 0 := not_le.mpr ha
  rw [ColorSpace.k0, if_neg hγ1, if_neg ha1]
  push_cast
  apply div_pos
  · exact_mod_cast ha
  · have : (1 : ℝ) < (cs.descriptor.gamma : ℝ) := by exact_mod_cast hγ
    linarith

/-- C9: for every ColorSpace built from a built-in table entry, the transfer
functions are total over all real inputs: phi is non-zero (so the linear
branch's division is defined); whenever to_linear takes its power branch the
power's base (t + a)/(1 + a) is non-negative; whenever from_linear takes its
power branch its argument t is non-negative; and every negative input takes
the linear branch of both functions. -/
theorem transfer_function_total_on_builtins :
    ∀ d ∈ COLOR_SPACES, ∀ cs, create_color_space d = some cs →
      cs.phi ≠ 0 ∧
      (∀ t : ℝ, ¬ t < ((cs.k0 : ℚ) : ℝ) →
        0 ≤ (t + (cs.descriptor.linear_bias : ℝ)) / (1 + (cs.descriptor.linear_bias : ℝ))) ∧
      (∀ t : ℝ, ¬ t < ((cs.k0 : ℚ) : ℝ) / cs.phi → 0 ≤ t) ∧
      (∀ t : ℝ, t < 0 → t < ((cs.k0 : ℚ) : ℝ) ∧ t < ((cs.k0 : ℚ) : ℝ) / cs.phi) := by
  intro d hd cs hcs
  have hdesc := create_color_space_descriptor hcs
  have hcases := builtin_gamma_cases d hd
  rw [← hdesc] at hcases
  rcases hcases with ⟨h1, h2⟩ | ⟨h1, h2, h3⟩ | ⟨h1, h2⟩
  · have hp : cs.phi = 1 := by rw [ColorSpace.phi, if_pos h1]
    have hk : ((cs.k0 : ℚ) : ℝ) = 1e9 := by
      rw [ColorSpace.k0, if_pos h1]; norm_num
    rw [hp, hk, h2]
    refine ⟨one_ne_zero, fun t ht => ?_, fun t ht => ?_, fun t ht => ?_⟩
    · push_cast
      rw [add_zero, add_zero, div_one]
      rw [not_lt] at ht
      linarith
    · rw [div_one, not_lt] at ht
      linarith
    · rw [div_one]
      constructor <;> linarith
  · have hp : cs.phi = 1 := by rw [ColorSpace.phi, if_neg h1, if_pos (le_of_eq h3)]
    have hk : ((cs.k0 : ℚ) : ℝ) = 0 := by
      rw [ColorSpace.k0, if_neg h1, if_pos (le_of_eq h3)]; norm_num
    rw [hp, hk, h3]
    refine ⟨one_ne_zero, fun t ht => ?_, fun t ht => ?_, fun t ht => ?_⟩
    · push_cast
      rw [add_zero, add_zero, div_one]
      rw [not_lt] at ht
      linarith
    · rw [zero_div, not_lt] at ht
      linarith
    · rw [zero_div]
      constructor <;> linarith
  · have hppos := cs.phi_pos_srgb_like h1 h2
    have hkpos := cs.k0_pos_srgb_like h1 h2
    have hkphi : (0 : ℝ) < ((cs.k0 : ℚ) : ℝ) / cs.phi := div_pos hkpos hppos
    have haR : (0 : ℝ) < (cs.descriptor.linear_bias : ℝ) := by exact_mod_cast h2
    refine ⟨ne_of_gt hppos, fun t ht => ?_, fun t ht => ?_, fun t ht => ?_⟩
    · rw [not_lt] at ht
      apply div_nonneg <;> linarith
    · rw [not_lt] at ht
      linarith
    · constructor <;> linarith

/-- Witness for transfer_function_total_on_builtins at the built-in identity
space: its phi is non-zero. -/
theorem transfer_function_total_on_builtins_witness :
    (ColorSpace.mk ⟨"identity", ⟨1.0, 0.0⟩, ⟨0.0, 1.0⟩, ⟨0.0, 0.0⟩, ⟨1/3, 1/3⟩, 1.0, 0.0⟩
      M33.identity).phi ≠ 0 :=
  (transfer_function_total_on_builtins
    ⟨"identity", ⟨1.0, 0.0⟩, ⟨0.0, 1.0⟩, ⟨0.0, 0.0⟩, ⟨1/3, 1/3⟩, 1.0, 0.0⟩
    (by simp [COLOR_SPACES])
    ⟨⟨"identity", ⟨1.0, 0.0⟩, ⟨0.0, 1.0⟩, ⟨0.0, 0.0⟩, ⟨1/3, 1/3⟩, 1.0, 0.0⟩, M33.identity⟩
    (by norm_num [create_color_space, coeffsOK, deriveMatrix, Pmatrix, M33.invert, M33.det,
      M33.identity, abs_div])).1

/-- C2: whenever the primaries derivation runs and succeeds (white point x
and y non-zero, primaries matrix P invertible), the derived RGB to XYZ matrix
maps RGB(1, 1, 1) to the white point's XYZ normalized to luminance 1:
(Wx/Wy, 1, (1 - Wx - Wy)/Wy). -/
theorem derived_matrix_maps_white (d : ColorSpaceDescriptor) (cs : ColorSpace)
    (hx : d.white_point.x ≠ 0) (hy : d.white_point.y ≠ 0)
    (hP : ((Pmatrix d).invert).isSome = true)
    (hcs : create_color_space d = some cs) :
    cs.rgb_to_xyz.mulVec 1 1 1 =
      XYZ.mk (d.white_point.x / d.white_point.y) 1
        ((1 - d.white_point.x - d.white_point.y) / d.white_point.y) := by
  obtain ⟨pinv, hpinv⟩ := Option.isSome_iff_exists.mp hP
  have hrec := M33.invert_mul_right hpinv
  rw [create_color_space] at hcs
  by_cases hc : coeffsOK d.gamma d.linear_bias = true
  · rw [if_pos hc, if_neg hx] at hcs
    obtain ⟨m, hm, rfl⟩ := Option.map_eq_some'.mp hcs
    rw [deriveMatrix, if_neg hy, hpinv] at hm
    obtain rfl := Option.some.inj hm
    simp only [M33.multiply, M33.identity, Pmatrix, M33.mk.injEq] at hrec
    obtain ⟨e0, e1, e2, e3, e4, e5, e6, e7, e8⟩ := hrec
    have hw1 : d.white_point.y / d.white_point.y = 1 := div_self hy
    simp only [M33.mulVec, Pmatrix, XYZ.mk.injEq, mul_one]
    refine ⟨?_, ?_, ?_⟩
    · linear_combination (d.white_point.x / d.white_point.y) * e0 +
        (d.white_point.y / d.white_point.y) * e1 +
        ((1 - d.white_point.x - d.white_point.y) / d.white_point.y) * e2
    · linear_combination (d.white_point.x / d.white_point.y) * e3 +
        (d.white_point.y / d.white_point.y) * e4 +
        ((1 - d.white_point.x - d.white_point.y) / d.white_point.y) * e5 + hw1
    · linear_combination (d.white_point.x / d.white_point.y) * e6 +
        (d.white_point.y / d.white_point.y) * e7 +
        ((1 - d.white_point.x - d.white_point.y) / d.white_point.y) * e8
  · rw [if_neg hc] at hcs
    exact Option.noConfusion hcs

/-- Witness for derived_matrix_maps_white at the built-in identity space,
whose white point is (1/3, 1/3). -/
theorem derived_matrix_maps_white_witness :
    (ColorSpace.mk ⟨"identity", ⟨1.0, 0.0⟩, ⟨0.0, 1.0⟩, ⟨0.0, 0.0⟩, ⟨1/3, 1/3⟩, 1.0, 0.0⟩
        M33.identity).rgb_to_xyz.mulVec 1 1 1 =
      XYZ.mk ((1/3 : ℚ) / (1/3)) 1 ((1 - 1/3 - 1/3 : ℚ) / (1/3)) :=
  derived_matrix_maps_white
    ⟨"identity", ⟨1.0, 0.0⟩, ⟨0.0, 1.0⟩, ⟨0.0, 0.0⟩, ⟨1/3, 1/3⟩, 1.0, 0.0⟩
    ⟨⟨"identity", ⟨1.0, 0.0⟩, ⟨0.0, 1.0⟩, ⟨0.0, 0.0⟩, ⟨1/3, 1/3⟩, 1.0, 0.0⟩, M33.identity⟩
    (by norm_num) (by norm_num)
    (by norm_num [Pmatrix, M33.invert, M33.det])
    (by norm_num [create_color_space, coeffsOK, deriveMatrix, Pmatrix, M33.invert, M33.det,
      M33.identity, abs_div])
